import Mathlib

/-
Shallow embedding of the library-management service:
  backend.py     (FastAPI endpoints: add_book, issue_book, return_book,
                  delete_book, register_user, find_user_binary)
  streamlit_app.py (dashboard: payload construction, calc_fine)

Modelling decisions, each traceable to the source:
  * Dates are modelled as `Int` day numbers; `timedelta(days = n)` is `+ n`
    and `(a - b).days` is `a - b`.
  * `books_map : Dict[str, Book]` is modelled as a `List Book` in insertion
    order with at most one entry per isbn in any state the service itself
    produces; dict lookup `books_map.get(isbn)` is first-match `find?`,
    mutation of the fetched entry touches exactly that first match, and
    `books_map.pop(isbn)` removes it.
  * The customer registry `user_database.json` is modelled as the list of
    `coustomer_id` values it stores, since every backend operation on it
    (sort key, binary search) reads only that field.
  * HTTP status codes are mapped to the abstract error taxonomy of the
    specification: 403 is Forbidden, 404 is NotFound, the 400 raised for
    an identity collision on create is DuplicateKey, the 400s raised for a
    violated state precondition (book already issued, book already
    available on a return attempt, deletion blocked by an active loan) are
    Conflict, and the 400 raised by return_book when no active loan record
    exists for the isbn reports the absence of the referenced loan, hence
    NotFound.
  * Each endpoint is a pure function returning (error?, post-state); every
    error is raised in the source before any mutation, so the post-state
    on an error is the input state.
-/

namespace LibraryMS

/-- Error taxonomy of the specification (section 7). -/
inductive ApiError where
  | NotFound
  | DuplicateKey
  | Conflict
  | Forbidden
  | UpstreamUnavailable
  deriving Repr, DecidableEq

/-- Book record (backend.py, class Book). -/
structure Book where
  title : String
  author : String
  pages : Nat
  available : Bool
  isbn : String
  genre : String
  deriving Repr, DecidableEq

/-- Loan record (backend.py, class LoanRecord); dates are Int day numbers. -/
structure LoanRecord where
  isbn : String
  coustomer_id : Int
  issue_date : Int
  due_date : Int
  returned : Bool
  deriving Repr, DecidableEq

/-- In-memory state of the service: `books_map` (as an insertion-ordered
list) and `loans_db`. -/
structure LibState where
  books : List Book
  loans : List LoanRecord
  deriving Repr, DecidableEq

/-- Dict lookup `books_map.get(isbn)`: the unique (hence first) entry whose
key is `isbn`. -/
def findBook (books : List Book) (isbn : String) : Option Book :=
  books.find? (fun b => b.isbn == isbn)

/-- Mutating `book_to_update.available = v` on the entry fetched by
`books_map.get(isbn)`: updates exactly the first match. -/
def setAvailability : List Book → String → Bool → List Book
  | [], _, _ => []
  | b :: bs, isbn, v =>
      if b.isbn == isbn then { b with available := v } :: bs
      else b :: setAvailability bs isbn v

/-- Dict removal `books_map.pop(isbn)`: removes the unique (hence first)
entry whose key is `isbn`. -/
def removeBook : List Book → String → List Book
  | [], _ => []
  | b :: bs, isbn => if b.isbn == isbn then bs else b :: removeBook bs isbn

/-- Loop body of find_user_binary (backend.py lines 136-150): binary search
over the stored customer ids with inclusive Nat bounds. The Python exit
through `high = -1` is the `mid = 0` branch; the element access
`users_db[mid]` is modelled as `getD` with an arbitrary fallback, and the
`high < users.length` conjunct records that the access is in range, which
the initial bounds `0, len - 1` and the loop structure always guarantee. -/
def fub_go (target : Int) (users : List Int) (low high : Nat) : Bool :=
  if h : low ≤ high ∧ high < users.length then
    if users.getD ((low + high) / 2) 0 = target then true
    else if users.getD ((low + high) / 2) 0 < target then
      fub_go target users ((low + high) / 2 + 1) high
    else if (low + high) / 2 = 0 then false
    else fub_go target users low ((low + high) / 2 - 1)
  else false
termination_by high + 1 - low
decreasing_by
  all_goals omega

/-- find_user_binary (backend.py): `low, high = 0, len(users_db) - 1`
followed by the search loop. -/
def find_user_binary (target : Int) (users : List Int) : Bool :=
  fub_go target users 0 (users.length - 1)

/-- Sorting of the stored customers by `coustomer_id`
(`users_db.sort(key = ...)`). -/
def sortIds (l : List Int) : List Int :=
  l.mergeSort (fun a b => decide (a ≤ b))

/-- register_user (backend.py, POST /customers/): load the stored list,
sort it by id, reject with an identity-collision error when binary search
finds the id, otherwise append, re-sort and save. -/
def register_user (users : List Int) (cid : Int) : Option ApiError × List Int :=
  if find_user_binary cid (sortIds users) then (some .DuplicateKey, users)
  else (none, sortIds (sortIds users ++ [cid]))

/-- add_book (backend.py, POST /books/): duplicate-isbn check, then dict
insertion. -/
def add_book (s : LibState) (book : Book) : Option ApiError × LibState :=
  if (findBook s.books book.isbn).isSome then (some .DuplicateKey, s)
  else (none, { s with books := s.books ++ [book] })

/-- issue_book (backend.py, POST /loans/), taking the operation parameters
the system sends it: the dashboard payload carries isbn, coustomer_id and
`issue_date = today` (streamlit_app.py lines 181-185), and the unsupplied
fields take the model defaults `due_date = today + 30 days` and
`returned = false`. Checks: registered customer (binary search over the
stored ids, else 403), book exists (else 404), book available (else 400);
then the loan is appended and the book marked unavailable. -/
def issue_book (users : List Int) (s : LibState) (isbn : String) (cid : Int)
    (today : Int) : Option ApiError × LibState :=
  if !find_user_binary cid users then (some .Forbidden, s)
  else
    match findBook s.books isbn with
    | none => (some .NotFound, s)
    | some b =>
      if !b.available then (some .Conflict, s)
      else (none, { books := setAvailability s.books isbn false,
                    loans := s.loans ++ [{ isbn := isbn, coustomer_id := cid,
                                           issue_date := today,
                                           due_date := today + 30,
                                           returned := false }] })

/-- Index of the loan return_book mutates: the source scans `reversed(loans_db)`
for the first loan with matching isbn and `returned = false`, i.e. the
last such index in the list. -/
def lastActiveIdx (loans : List LoanRecord) (isbn : String) : Option Nat :=
  match loans with
  | [] => none
  | l :: ls =>
      match lastActiveIdx ls isbn with
      | some i => some (i + 1)
      | none => if l.isbn == isbn && !l.returned then some 0 else none

/-- Mutation of the found loan object: `returned = True` and
`due_date = today` at position `i`, every other position untouched. -/
def markReturned : List LoanRecord → Nat → Int → List LoanRecord
  | [], _, _ => []
  | l :: ls, 0, today => { l with returned := true, due_date := today } :: ls
  | l :: ls, i + 1, today => l :: markReturned ls i today

/-- return_book (backend.py, POST /loans/return/): book must exist (else
404) and be unavailable (else 400 for a return attempt on an available
book); the most recent unreturned loan for the isbn is located (else 400:
no active loan record, the referenced loan is absent) and marked returned
with the return date recorded in due_date; the book becomes available.
The coustomer_id of the request is accepted but never consulted. -/
def return_book (s : LibState) (isbn : String) (cid : Int) (today : Int) :
    Option ApiError × LibState :=
  match findBook s.books isbn with
  | none => (some .NotFound, s)
  | some b =>
    if b.available then (some .Conflict, s)
    else
      match lastActiveIdx s.loans isbn with
      | none => (some .NotFound, s)
      | some i => (none, { books := setAvailability s.books isbn true,
                           loans := markReturned s.loans i today })

/-- Active-loan check of delete_book: `any(loan.isbn == isbn and not
loan.returned for loan in loans_db)`. -/
def hasActiveLoan (loans : List LoanRecord) (isbn : String) : Bool :=
  loans.any (fun l => l.isbn == isbn && !l.returned)

/-- delete_book (backend.py, DELETE /books/): book must exist (else 404);
when it is marked unavailable and an unreturned loan for the isbn exists
the deletion is blocked (400, Conflict); otherwise the entry is popped. -/
def delete_book (s : LibState) (isbn : String) : Option ApiError × LibState :=
  match findBook s.books isbn with
  | none => (some .NotFound, s)
  | some b =>
    if !b.available && hasActiveLoan s.loans isbn then (some .Conflict, s)
    else (none, { s with books := removeBook s.books isbn })

/-- calc_fine (streamlit_app.py lines 282-291): zero for a returned loan;
otherwise `days_diff = due_date - today`, zero when non-negative, else
`abs(days_diff) * 5`. -/
def calc_fine (loan : LoanRecord) (today : Int) : Int :=
  if loan.returned then 0
  else
    let days_diff := loan.due_date - today
    if 0 ≤ days_diff then 0 else |days_diff| * 5

/-- Number of unreturned loans in the ledger for a given isbn. -/
def countActive (loans : List LoanRecord) (isbn : String) : Nat :=
  (loans.filter (fun l => l.isbn == isbn && !l.returned)).length

/-- Position of the dict entry for a key: index of the first (unique)
catalog entry whose isbn matches. -/
def firstBookIdx : List Book → String → Option Nat
  | [], _ => none
  | b :: bs, isbn =>
      if b.isbn == isbn then some 0
      else (firstBookIdx bs isbn).map (· + 1)

/-- States reachable from the empty library by the catalog, issue and
return operations the system performs. Catalog insertions carry
`available = true`: the dashboard, the only writer in this repository,
always submits `"available": True` (streamlit_app.py lines 136-143), which
is also the model default of the Book class. -/
inductive Reachable (users : List Int) : LibState → Prop where
  | empty : Reachable users { books := [], loans := [] }
  | add {s s2 : LibState} {b : Book} : Reachable users s → b.available = true →
      add_book s b = (none, s2) → Reachable users s2
  | issue {s s2 : LibState} {isbn : String} {cid today : Int} :
      Reachable users s → issue_book users s isbn cid today = (none, s2) →
      Reachable users s2
  | ret {s s2 : LibState} {isbn : String} {cid today : Int} :
      Reachable users s → return_book s isbn cid today = (none, s2) →
      Reachable users s2

/-- Consistency invariant maintained by the coordinator: catalog keys are
unique, every loan references a catalogued book, and each book is
unavailable for exactly one unreturned loan (available for none). -/
def Inv (s : LibState) : Prop :=
  (s.books.map Book.isbn).Nodup ∧
  (∀ l ∈ s.loans, ∃ b ∈ s.books, b.isbn = l.isbn) ∧
  (∀ b ∈ s.books, countActive s.loans b.isbn = if b.available then 0 else 1)

/-! Helper lemmas about the catalog operations. -/

theorem findBook_eq_none {books : List Book} {isbn : String} :
    findBook books isbn = none ↔ ∀ b ∈ books, b.isbn ≠ isbn := by
  simp [findBook, List.find?_eq_none]

theorem findBook_isbn {books : List Book} {isbn : String} {b : Book}
    (h : findBook books isbn = some b) : b.isbn = isbn ∧ b ∈ books := by
  refine ⟨?_, List.mem_of_find?_eq_some h⟩
  have := List.find?_some h
  simpa using this

theorem findBook_cons_pos {b0 : Book} {bs : List Book} {isbn : String}
    (h : b0.isbn = isbn) : findBook (b0 :: bs) isbn = some b0 := by
  simp [findBook, List.find?_cons_of_pos, h]

theorem findBook_cons_neg {b0 : Book} {bs : List Book} {isbn : String}
    (h : ¬ b0.isbn = isbn) : findBook (b0 :: bs) isbn = findBook bs isbn := by
  simp only [findBook]
  rw [List.find?_cons_of_neg]
  simpa using h

theorem setAvailability_cons_pos {b0 : Book} {bs : List Book} {isbn : String}
    {v : Bool} (h : b0.isbn = isbn) :
    setAvailability (b0 :: bs) isbn v = { b0 with available := v } :: bs := by
  simp [setAvailability, h]

theorem setAvailability_cons_neg {b0 : Book} {bs : List Book} {isbn : String}
    {v : Bool} (h : ¬ b0.isbn = isbn) :
    setAvailability (b0 :: bs) isbn v = b0 :: setAvailability bs isbn v := by
  simp [setAvailability, h]

theorem removeBook_cons_pos {b0 : Book} {bs : List Book} {isbn : String}
    (h : b0.isbn = isbn) : removeBook (b0 :: bs) isbn = bs := by
  simp [removeBook, h]

theorem removeBook_cons_neg {b0 : Book} {bs : List Book} {isbn : String}
    (h : ¬ b0.isbn = isbn) :
    removeBook (b0 :: bs) isbn = b0 :: removeBook bs isbn := by
  simp [removeBook, h]

theorem setAvailability_map_isbn (books : List Book) (isbn : String) (v : Bool) :
    (setAvailability books isbn v).map Book.isbn = books.map Book.isbn := by
  induction books with
  | nil => rfl
  | cons b bs ih =>
      by_cases h : b.isbn = isbn
      · rw [setAvailability_cons_pos h]
        simp
      · rw [setAvailability_cons_neg h]
        simp [ih]

theorem findBook_setAvailability {books : List Book} {isbn : String} {b : Book}
    (v : Bool) (h : findBook books isbn = some b) :
    findBook (setAvailability books isbn v) isbn = some { b with available := v } := by
  induction books with
  | nil => simp [findBook] at h
  | cons b0 bs ih =>
      by_cases h0 : b0.isbn = isbn
      · rw [findBook_cons_pos h0] at h
        obtain rfl : b0 = b := by simpa using h
        rw [setAvailability_cons_pos h0, findBook_cons_pos (by simpa using h0)]
      · rw [findBook_cons_neg h0] at h
        rw [setAvailability_cons_neg h0, findBook_cons_neg h0]
        exact ih h

theorem setAvailability_mem {books : List Book} {isbn : String} {b b2 : Book} {v : Bool}
    (hnd : (books.map Book.isbn).Nodup) (hfb : findBook books isbn = some b)
    (h2 : b2 ∈ setAvailability books isbn v) :
    (b2 ∈ books ∧ b2.isbn ≠ isbn) ∨ b2 = { b with available := v } := by
  induction books with
  | nil => simp [findBook] at hfb
  | cons b0 bs ih =>
      simp only [List.map_cons, List.nodup_cons] at hnd
      by_cases h0 : b0.isbn = isbn
      · rw [findBook_cons_pos h0] at hfb
        obtain rfl : b0 = b := by simpa using hfb
        rw [setAvailability_cons_pos h0] at h2
        rcases List.mem_cons.mp h2 with h2 | h2
        · right; exact h2
        · left
          refine ⟨List.mem_cons_of_mem _ h2, ?_⟩
          intro hiz
          exact hnd.1 (by rw [h0, ← hiz]; exact List.mem_map_of_mem Book.isbn h2)
      · rw [findBook_cons_neg h0] at hfb
        rw [setAvailability_cons_neg h0] at h2
        rcases List.mem_cons.mp h2 with h2 | h2
        · subst h2
          exact Or.inl ⟨List.mem_cons_self _ _, h0⟩
        · rcases ih hnd.2 hfb h2 with h | h
          · exact Or.inl ⟨List.mem_cons_of_mem _ h.1, h.2⟩
          · exact Or.inr h

theorem findBook_removeBook {books : List Book} {isbn : String}
    (hnd : (books.map Book.isbn).Nodup) :
    findBook (removeBook books isbn) isbn = none := by
  induction books with
  | nil => rfl
  | cons b0 bs ih =>
      simp only [List.map_cons, List.nodup_cons] at hnd
      by_cases h0 : b0.isbn = isbn
      · rw [removeBook_cons_pos h0, findBook_eq_none]
        intro b hb hiz
        exact hnd.1 (by rw [h0, ← hiz]; exact List.mem_map_of_mem Book.isbn hb)
      · rw [removeBook_cons_neg h0, findBook_cons_neg h0]
        exact ih hnd.2

/-! Helper lemmas about the loan ledger operations. -/

theorem countActive_nil (isbn : String) : countActive [] isbn = 0 := rfl

theorem countActive_append_one (loans : List LoanRecord) (l : LoanRecord)
    (isbn : String) :
    countActive (loans ++ [l]) isbn =
      countActive loans isbn +
        (if l.isbn = isbn ∧ l.returned = false then 1 else 0) := by
  simp only [countActive, List.filter_append, List.length_append]
  congr 1
  rw [List.filter_cons]
  by_cases h1 : l.isbn = isbn <;> by_cases h2 : l.returned = true <;>
    simp [h1, h2]

theorem countActive_eq_zero {loans : List LoanRecord} {isbn : String} :
    countActive loans isbn = 0 ↔ ∀ l ∈ loans, l.isbn = isbn → l.returned = true := by
  simp only [countActive, List.length_eq_zero, List.filter_eq_nil_iff]
  constructor
  · intro h l hl hiz
    have := h l hl
    simp [hiz] at this
    exact this
  · intro h l hl
    by_cases hiz : l.isbn = isbn
    · simp [hiz, h l hl hiz]
    · simp [hiz]

theorem hasActiveLoan_iff {loans : List LoanRecord} {isbn : String} :
    hasActiveLoan loans isbn = true ↔
      ∃ l ∈ loans, l.isbn = isbn ∧ l.returned = false := by
  simp only [hasActiveLoan, List.any_eq_true]
  constructor
  · rintro ⟨l, hl, hp⟩
    refine ⟨l, hl, ?_⟩
    simpa using hp
  · rintro ⟨l, hl, h1, h2⟩
    exact ⟨l, hl, by simp [h1, h2]⟩

theorem hasActiveLoan_false_iff {loans : List LoanRecord} {isbn : String} :
    hasActiveLoan loans isbn = false ↔ countActive loans isbn = 0 := by
  rw [countActive_eq_zero]
  rw [← Bool.not_eq_true, hasActiveLoan_iff]
  push_neg
  constructor
  · intro h l hl hiz
    have := h l hl hiz
    simpa using this
  · intro h l hl hiz
    simp [h l hl hiz]

theorem lastActiveIdx_eq_none {loans : List LoanRecord} {isbn : String} :
    lastActiveIdx loans isbn = none ↔
      ∀ l ∈ loans, l.isbn = isbn → l.returned = true := by
  induction loans with
  | nil => simp [lastActiveIdx]
  | cons l0 ls ih =>
      simp only [lastActiveIdx]
      constructor
      · intro h
        rcases hls : lastActiveIdx ls isbn with _ | i
        · rw [hls] at h
          by_cases h0 : l0.isbn = isbn ∧ l0.returned = false
          · simp [h0.1, h0.2] at h
          · intro l hl hiz
            rcases List.mem_cons.mp hl with rfl | hl2
            · by_cases hr : l.returned
              · exact hr
              · exact absurd ⟨hiz, by simpa using hr⟩ h0
            · exact (ih.mp hls) l hl2 hiz
        · rw [hls] at h; simp at h
      · intro h
        have hls : lastActiveIdx ls isbn = none :=
          ih.mpr fun l hl hiz => h l (List.mem_cons_of_mem _ hl) hiz
        rw [hls]
        have := h l0 (List.mem_cons_self _ _)
        by_cases hiz : l0.isbn = isbn
        · simp [hiz, this hiz]
        · simp [hiz]

theorem lastActiveIdx_spec {loans : List LoanRecord} {isbn : String} {i : Nat}
    (h : lastActiveIdx loans isbn = some i) :
    ∃ l, loans.get? i = some l ∧ l.isbn = isbn ∧ l.returned = false ∧
      ∀ j l2, i < j → loans.get? j = some l2 → l2.isbn = isbn →
        l2.returned = true := by
  induction loans generalizing i with
  | nil => simp [lastActiveIdx] at h
  | cons l0 ls ih =>
      simp only [lastActiveIdx] at h
      rcases hls : lastActiveIdx ls isbn with _ | i0
      · rw [hls] at h
        by_cases h0 : l0.isbn = isbn ∧ l0.returned = false
        · rw [if_pos (by simp [h0.1, h0.2])] at h
          obtain rfl : (0 : Nat) = i := by simpa using h
          refine ⟨l0, rfl, h0.1, h0.2, ?_⟩
          intro j l2 hj hget hiz
          match j, hj with
          | j + 1, _ =>
            exact (lastActiveIdx_eq_none.mp hls) l2
              (List.get?_mem (by simpa using hget)) hiz
        · rw [if_neg (by intro hb; exact h0 (by simpa using hb))] at h
          simp at h
      · rw [hls] at h
        obtain rfl : i0 + 1 = i := by simpa using h
        obtain ⟨l, hget, hiz, hret, hmax⟩ := ih hls
        refine ⟨l, by simpa using hget, hiz, hret, ?_⟩
        intro j l2 hj hget2 hiz2
        match j, hj with
        | j + 1, hj =>
          exact hmax j l2 (by omega) (by simpa using hget2) hiz2

theorem markReturned_get?_same {loans : List LoanRecord} {i : Nat} {l : LoanRecord}
    (today : Int) (h : loans.get? i = some l) :
    (markReturned loans i today).get? i =
      some { l with returned := true, due_date := today } := by
  induction loans generalizing i with
  | nil => simp at h
  | cons l0 ls ih =>
      match i with
      | 0 =>
          obtain rfl : l0 = l := by simpa using h
          rfl
      | i + 1 =>
          simp only [markReturned, List.get?_cons_succ]
          exact ih (by simpa using h)

theorem markReturned_get?_other {loans : List LoanRecord} {i j : Nat} (today : Int)
    (hne : j ≠ i) : (markReturned loans i today).get? j = loans.get? j := by
  induction loans generalizing i j with
  | nil => simp [markReturned]
  | cons l0 ls ih =>
      match i, j with
      | 0, 0 => exact absurd rfl hne
      | 0, j + 1 => rfl
      | i + 1, 0 => rfl
      | i + 1, j + 1 =>
          simp only [markReturned, List.get?_cons_succ]
          exact ih (by omega)

theorem markReturned_map_isbn (loans : List LoanRecord) (i : Nat) (today : Int) :
    (markReturned loans i today).map LoanRecord.isbn =
      loans.map LoanRecord.isbn := by
  induction loans generalizing i with
  | nil => rfl
  | cons l0 ls ih =>
      match i with
      | 0 => rfl
      | i + 1 => simp [markReturned, ih]

theorem countActive_markReturned {loans : List LoanRecord} {i : Nat}
    {l : LoanRecord} {isbn : String} (today : Int)
    (h : loans.get? i = some l) (hiz : l.isbn = isbn) (hret : l.returned = false) :
    countActive (markReturned loans i today) isbn + 1 = countActive loans isbn := by
  induction loans generalizing i with
  | nil => simp at h
  | cons l0 ls ih =>
      match i with
      | 0 =>
          obtain rfl : l0 = l := by simpa using h
          simp only [markReturned, countActive, List.filter_cons]
          simp [hiz, hret]
      | i + 1 =>
          have := ih (by simpa using h)
          simp only [markReturned, countActive, List.filter_cons] at *
          by_cases hc : (l0.isbn == isbn && !l0.returned) = true <;>
            simp [hc] at * <;> omega

theorem countActive_markReturned_ne {loans : List LoanRecord} {i : Nat}
    {l : LoanRecord} {isbn2 : String} (today : Int)
    (h : loans.get? i = some l) (hne : l.isbn ≠ isbn2) :
    countActive (markReturned loans i today) isbn2 = countActive loans isbn2 := by
  induction loans generalizing i with
  | nil => simp at h
  | cons l0 ls ih =>
      match i with
      | 0 =>
          obtain rfl : l0 = l := by simpa using h
          simp only [markReturned, countActive, List.filter_cons]
          by_cases hc : l0.returned <;> simp [hne, hc]
      | i + 1 =>
          have := ih (by simpa using h)
          simp only [markReturned, countActive, List.filter_cons] at *
          by_cases hc : (l0.isbn == isbn2 && !l0.returned) = true <;>
            simp [hc] at * <;> omega

theorem firstBookIdx_cons_pos {b0 : Book} {bs : List Book} {isbn : String}
    (h : b0.isbn = isbn) : firstBookIdx (b0 :: bs) isbn = some 0 := by
  simp [firstBookIdx, h]

theorem firstBookIdx_cons_neg {b0 : Book} {bs : List Book} {isbn : String}
    (h : ¬ b0.isbn = isbn) :
    firstBookIdx (b0 :: bs) isbn = (firstBookIdx bs isbn).map (· + 1) := by
  simp [firstBookIdx, h]

theorem findBook_firstBookIdx {books : List Book} {isbn : String} {b : Book}
    (h : findBook books isbn = some b) :
    ∃ k, firstBookIdx books isbn = some k ∧ books.get? k = some b := by
  induction books with
  | nil => simp [findBook] at h
  | cons b0 bs ih =>
      by_cases h0 : b0.isbn = isbn
      · rw [findBook_cons_pos h0] at h
        obtain rfl : b0 = b := by simpa using h
        exact ⟨0, by simp [firstBookIdx, h0], rfl⟩
      · rw [findBook_cons_neg h0] at h
        obtain ⟨k, hk, hget⟩ := ih h
        refine ⟨k + 1, ?_, by simpa using hget⟩
        simp [firstBookIdx, h0, hk]

theorem setAvailability_get?_at {books : List Book} {isbn : String} {k : Nat}
    {b : Book} (v : Bool) (hk : firstBookIdx books isbn = some k)
    (hb : books.get? k = some b) :
    (setAvailability books isbn v).get? k = some { b with available := v } := by
  induction books generalizing k with
  | nil => simp [firstBookIdx] at hk
  | cons b0 bs ih =>
      by_cases h0 : b0.isbn = isbn
      · rw [firstBookIdx_cons_pos h0] at hk
        obtain rfl : (0 : Nat) = k := by simpa using hk
        obtain rfl : b0 = b := by simpa using hb
        rw [setAvailability_cons_pos h0]
        rfl
      · rw [firstBookIdx_cons_neg h0, Option.map_eq_some'] at hk
        obtain ⟨k0, hk0, rfl⟩ := hk
        rw [setAvailability_cons_neg h0]
        simpa using ih hk0 (by simpa using hb)

theorem setAvailability_get?_other {books : List Book} {isbn : String} {k j : Nat}
    (v : Bool) (hk : firstBookIdx books isbn = some k) (hne : j ≠ k) :
    (setAvailability books isbn v).get? j = books.get? j := by
  induction books generalizing k j with
  | nil => rfl
  | cons b0 bs ih =>
      by_cases h0 : b0.isbn = isbn
      · rw [firstBookIdx_cons_pos h0] at hk
        obtain rfl : (0 : Nat) = k := by simpa using hk
        rw [setAvailability_cons_pos h0]
        match j with
        | 0 => exact absurd rfl hne
        | j + 1 => rfl
      · rw [firstBookIdx_cons_neg h0, Option.map_eq_some'] at hk
        obtain ⟨k0, hk0, rfl⟩ := hk
        rw [setAvailability_cons_neg h0]
        match j with
        | 0 => rfl
        | j + 1 =>
            simp only [List.get?_cons_succ]
            exact ih hk0 (by omega)

/-! Correctness of the binary search over the sorted customer registry. -/

theorem getD_mem_of_lt {l : List Int} {n : Nat} (h : n < l.length) :
    l.getD n 0 ∈ l := by
  rw [List.getD_eq_get?, List.get?_eq_get h]
  exact List.get_mem l n h

theorem fub_go_mem {t : Int} {us : List Int} (low high : Nat) :
    fub_go t us low high = true → t ∈ us := by
  induction low, high using fub_go.induct t us with
  | case1 low high hg heq =>
      intro _
      rw [← heq]
      exact getD_mem_of_lt (by omega)
  | case2 low high hg hne hlt ih =>
      intro h
      rw [fub_go, dif_pos hg, if_neg hne, if_pos hlt] at h
      exact ih h
  | case3 low high hg hne hnlt h0 =>
      intro h
      rw [fub_go, dif_pos hg, if_neg hne, if_neg hnlt, if_pos h0] at h
      exact absurd h (by simp)
  | case4 low high hg hne hnlt h0 ih =>
      intro h
      rw [fub_go, dif_pos hg, if_neg hne, if_neg hnlt, if_neg h0] at h
      exact ih h
  | case5 low high hg =>
      intro h
      rw [fub_go, dif_neg hg] at h
      exact absurd h (by simp)

theorem fub_go_complete {t : Int} {us : List Int} (hs : us.Pairwise (· ≤ ·))
    (low high : Nat) :
    high < us.length →
    (∃ i, low ≤ i ∧ i ≤ high ∧ us.get? i = some t) →
    fub_go t us low high = true := by
  have hmono : ∀ (i j : Nat) (hi : i < us.length) (hj : j < us.length), i ≤ j →
      us.get ⟨i, hi⟩ ≤ us.get ⟨j, hj⟩ := by
    intro i j hi hj hij
    rcases Nat.lt_or_ge i j with hlt | hge
    · exact (List.pairwise_iff_get.mp hs) ⟨i, hi⟩ ⟨j, hj⟩ hlt
    · have : i = j := by omega
      subst this
      exact le_refl _
  induction low, high using fub_go.induct t us with
  | case1 low high hg heq =>
      intro _ _
      rw [fub_go, dif_pos hg, if_pos heq]
  | case2 low high hg hne hlt ih =>
      rintro hlen ⟨i, hlo, hhi, hit⟩
      rw [fub_go, dif_pos hg, if_neg hne, if_pos hlt]
      apply ih hlen
      refine ⟨i, ?_, hhi, hit⟩
      by_contra hcon
      push_neg at hcon
      have hi : i < us.length := by omega
      have hmid : (low + high) / 2 < us.length := by omega
      have hgetD : us.getD ((low + high) / 2) 0 = us.get ⟨(low + high) / 2, hmid⟩ := by
        rw [List.getD_eq_get?, List.get?_eq_get hmid]
        rfl
      have hile : i ≤ (low + high) / 2 := by omega
      have h1 : us.get ⟨i, hi⟩ ≤ us.get ⟨(low + high) / 2, hmid⟩ :=
        hmono i ((low + high) / 2) hi hmid hile
      have h2 : us.get ⟨i, hi⟩ = t := by
        have := List.get?_eq_get hi
        rw [this] at hit
        simpa using hit
      rw [h2, ← hgetD] at h1
      omega
  | case3 low high hg hne hnlt h0 =>
      rintro hlen ⟨i, hlo, hhi, hit⟩
      exfalso
      have hi : i < us.length := by omega
      have hmid : (low + high) / 2 < us.length := by omega
      have hgetD : us.getD ((low + high) / 2) 0 = us.get ⟨(low + high) / 2, hmid⟩ := by
        rw [List.getD_eq_get?, List.get?_eq_get hmid]
        rfl
      have hige : (low + high) / 2 ≤ i := by omega
      have h1 : us.get ⟨(low + high) / 2, hmid⟩ ≤ us.get ⟨i, hi⟩ :=
        hmono ((low + high) / 2) i hmid hi hige
      have h2 : us.get ⟨i, hi⟩ = t := by
        have := List.get?_eq_get hi
        rw [this] at hit
        simpa using hit
      rw [h2, ← hgetD] at h1
      rcases lt_or_eq_of_le h1 with h | h
      · exact hnlt h
      · exact hne h
  | case4 low high hg hne hnlt h0 ih =>
      rintro hlen ⟨i, hlo, hhi, hit⟩
      rw [fub_go, dif_pos hg, if_neg hne, if_neg hnlt, if_neg h0]
      have hi : i < us.length := by omega
      have hmid : (low + high) / 2 < us.length := by omega
      have hgetD : us.getD ((low + high) / 2) 0 = us.get ⟨(low + high) / 2, hmid⟩ := by
        rw [List.getD_eq_get?, List.get?_eq_get hmid]
        rfl
      have h2 : us.get ⟨i, hi⟩ = t := by
        have := List.get?_eq_get hi
        rw [this] at hit
        simpa using hit
      have hilt : i < (low + high) / 2 := by
        by_contra hcon
        push_neg at hcon
        have h1 : us.get ⟨(low + high) / 2, hmid⟩ ≤ us.get ⟨i, hi⟩ :=
          hmono ((low + high) / 2) i hmid hi hcon
        rw [h2, ← hgetD] at h1
        rcases lt_or_eq_of_le h1 with h | h
        · exact hnlt h
        · exact hne h
      apply ih (by omega)
      exact ⟨i, hlo, by omega, hit⟩
  | case5 low high hg =>
      rintro hlen ⟨i, hlo, hhi, hit⟩
      exact absurd ⟨by omega, hlen⟩ hg

theorem find_user_binary_iff {t : Int} {us : List Int}
    (hs : us.Pairwise (· ≤ ·)) : find_user_binary t us = true ↔ t ∈ us := by
  constructor
  · exact fub_go_mem 0 (us.length - 1)
  · intro hmem
    obtain ⟨⟨i, hi⟩, hget⟩ := List.mem_iff_get.mp hmem
    have hlen : 0 < us.length := by
      cases us
      · simp at hmem
      · simp
    apply fub_go_complete hs 0 (us.length - 1) (by omega)
    refine ⟨i, by omega, by omega, ?_⟩
    rw [List.get?_eq_get hi, hget]

theorem sortIds_sorted (l : List Int) : (sortIds l).Pairwise (· ≤ ·) := by
  have h : (List.mergeSort l (fun a b : Int => decide (a ≤ b))).Pairwise
      (fun a b : Int => decide (a ≤ b) = true) := by
    apply List.sorted_mergeSort
    · intro a b c hab hbc
      simp only [decide_eq_true_eq] at *
      omega
    · intro a b
      simp only [Bool.or_eq_true, decide_eq_true_eq]
      omega
  exact h.imp fun hab => by simpa using hab

theorem mem_sortIds {a : Int} {l : List Int} : a ∈ sortIds l ↔ a ∈ l :=
  List.mem_mergeSort

/-! Inversion and introduction lemmas for the endpoint functions. -/

theorem add_book_ok_inv {s : LibState} {book : Book} {s2 : LibState}
    (h : add_book s book = (none, s2)) :
    findBook s.books book.isbn = none ∧
    s2 = { s with books := s.books ++ [book] } := by
  unfold add_book at h
  rcases hfb : findBook s.books book.isbn with _ | b
  · rw [hfb] at h
    simp only [Option.isSome_none, Bool.false_eq_true, if_false,
      Prod.mk.injEq] at h
    exact ⟨rfl, h.2.symm⟩
  · rw [hfb] at h
    simp at h

theorem issue_book_ok_inv {users : List Int} {s : LibState} {isbn : String}
    {cid today : Int} {s2 : LibState}
    (h : issue_book users s isbn cid today = (none, s2)) :
    find_user_binary cid users = true ∧
    ∃ b, findBook s.books isbn = some b ∧ b.available = true ∧
      s2 = { books := setAvailability s.books isbn false,
             loans := s.loans ++ [{ isbn := isbn, coustomer_id := cid,
                                    issue_date := today, due_date := today + 30,
                                    returned := false }] } := by
  unfold issue_book at h
  cases hfu : find_user_binary cid users with
  | false => rw [hfu] at h; simp at h
  | true =>
      rw [hfu] at h
      simp only [Bool.not_true, Bool.false_eq_true, if_false] at h
      rcases hfb : findBook s.books isbn with _ | b <;> rw [hfb] at h
      · simp at h
      · dsimp only at h
        cases hav : b.available with
        | false => rw [hav] at h; simp at h
        | true =>
            rw [hav] at h
            simp only [Bool.not_true, Bool.false_eq_true, if_false,
              Prod.mk.injEq] at h
            exact ⟨rfl, b, rfl, hav, h.2.symm⟩

theorem issue_book_eq_ok {users : List Int} {s : LibState} {isbn : String}
    {cid today : Int} {b : Book} (hfu : find_user_binary cid users = true)
    (hfb : findBook s.books isbn = some b) (hav : b.available = true) :
    issue_book users s isbn cid today =
      (none, { books := setAvailability s.books isbn false,
               loans := s.loans ++ [{ isbn := isbn, coustomer_id := cid,
                                      issue_date := today,
                                      due_date := today + 30,
                                      returned := false }] }) := by
  unfold issue_book
  rw [hfu]
  simp only [Bool.not_true, Bool.false_eq_true, if_false]
  rw [hfb]
  dsimp only
  rw [hav]
  simp

theorem return_book_ok_inv {s : LibState} {isbn : String} {cid today : Int}
    {s2 : LibState} (h : return_book s isbn cid today = (none, s2)) :
    ∃ b i, findBook s.books isbn = some b ∧ b.available = false ∧
      lastActiveIdx s.loans isbn = some i ∧
      s2 = { books := setAvailability s.books isbn true,
             loans := markReturned s.loans i today } := by
  unfold return_book at h
  rcases hfb : findBook s.books isbn with _ | b <;> rw [hfb] at h
  · simp at h
  · dsimp only at h
    cases hav : b.available with
    | true => rw [hav] at h; simp at h
    | false =>
        rw [hav] at h
        simp only [Bool.false_eq_true, if_false] at h
        rcases hla : lastActiveIdx s.loans isbn with _ | i <;> rw [hla] at h
        · simp at h
        · simp only [Prod.mk.injEq] at h
          exact ⟨b, i, rfl, hav, rfl, h.2.symm⟩

/-! Preservation of the consistency invariant. -/

theorem exists_book_isbn_iff {books : List Book} {x : String} :
    (∃ b ∈ books, b.isbn = x) ↔ x ∈ books.map Book.isbn := by
  simp [List.mem_map]

theorem inv_empty : Inv { books := [], loans := [] } := by
  refine ⟨List.nodup_nil, ?_, ?_⟩ <;> simp [Inv, countActive]

theorem inv_add_book {s : LibState} {book : Book} {s2 : LibState} (hinv : Inv s)
    (hav : book.available = true) (h : add_book s book = (none, s2)) : Inv s2 := by
  obtain ⟨hnd, hcl, hcnt⟩ := hinv
  obtain ⟨hfb, rfl⟩ := add_book_ok_inv h
  have hnotmem : book.isbn ∉ s.books.map Book.isbn := by
    intro hmem
    obtain ⟨b2, hb2, hb2i⟩ := exists_book_isbn_iff.mpr hmem
    exact (findBook_eq_none.mp hfb) b2 hb2 hb2i
  refine ⟨?_, ?_, ?_⟩
  · rw [List.map_append, List.nodup_append]
    refine ⟨hnd, by simp, ?_⟩
    intro x hx hx2
    simp only [List.map_cons, List.map_nil, List.mem_singleton] at hx2
    subst hx2
    exact hnotmem hx
  · intro l hl
    obtain ⟨b2, hb2, hb2i⟩ := hcl l hl
    exact ⟨b2, List.mem_append_left _ hb2, hb2i⟩
  · intro b2 hb2
    rcases List.mem_append.mp hb2 with hb2 | hb2
    · exact hcnt b2 hb2
    · have hb2e : b2 = book := by simpa using hb2
      subst hb2e
      rw [hav, if_pos rfl]
      rw [countActive_eq_zero]
      intro l hl hiz
      by_contra hret
      exfalso
      obtain ⟨b3, hb3, hb3i⟩ := hcl l hl
      exact (findBook_eq_none.mp hfb) b3 hb3 (by rw [hb3i, hiz])

theorem inv_issue_book {users : List Int} {s : LibState} {isbn : String}
    {cid today : Int} {s2 : LibState} (hinv : Inv s)
    (h : issue_book users s isbn cid today = (none, s2)) : Inv s2 := by
  obtain ⟨hnd, hcl, hcnt⟩ := hinv
  obtain ⟨-, b, hfb, hav, rfl⟩ := issue_book_ok_inv h
  obtain ⟨hbisbn, hbmem⟩ := findBook_isbn hfb
  refine ⟨?_, ?_, ?_⟩
  · simpa [setAvailability_map_isbn] using hnd
  · intro l hl
    rcases List.mem_append.mp hl with hl | hl
    · obtain ⟨b2, hb2, hb2i⟩ := hcl l hl
      apply exists_book_isbn_iff.mpr
      rw [setAvailability_map_isbn]
      exact exists_book_isbn_iff.mp ⟨b2, hb2, hb2i⟩
    · have hle : l = (⟨isbn, cid, today, today + 30, false⟩ : LoanRecord) := by
        simpa using hl
      subst hle
      apply exists_book_isbn_iff.mpr
      rw [setAvailability_map_isbn]
      exact exists_book_isbn_iff.mp ⟨b, hbmem, hbisbn⟩
  · intro b2 hb2
    rcases setAvailability_mem hnd hfb hb2 with ⟨hb2m, hb2ne⟩ | rfl
    · rw [countActive_append_one]
      rw [if_neg (by simp; intro hiz; exact absurd hiz.symm hb2ne)]
      simpa using hcnt b2 hb2m
    · have h0 : countActive s.loans isbn = 0 := by
        have := hcnt b hbmem
        rw [hav, if_pos rfl] at this
        rw [← hbisbn]
        exact this
      rw [countActive_append_one]
      have h4 : ({ b with available := false } : Book).isbn = b.isbn := rfl
      have h3 : ({ b with available := false } : Book).available = false := rfl
      simp only [h4, h3, hbisbn, h0]
      simp

theorem inv_return_book {s : LibState} {isbn : String} {cid today : Int}
    {s2 : LibState} (hinv : Inv s)
    (h : return_book s isbn cid today = (none, s2)) : Inv s2 := by
  obtain ⟨hnd, hcl, hcnt⟩ := hinv
  obtain ⟨b, i, hfb, hav, hla, rfl⟩ := return_book_ok_inv h
  obtain ⟨hbisbn, hbmem⟩ := findBook_isbn hfb
  obtain ⟨l, hget, hliz, hlret, -⟩ := lastActiveIdx_spec hla
  refine ⟨?_, ?_, ?_⟩
  · simpa [setAvailability_map_isbn] using hnd
  · intro l2 hl2
    have hl2i : l2.isbn ∈ (markReturned s.loans i today).map LoanRecord.isbn :=
      List.mem_map_of_mem _ hl2
    rw [markReturned_map_isbn] at hl2i
    obtain ⟨l3, hl3, hl3i⟩ := List.mem_map.mp hl2i
    obtain ⟨b2, hb2, hb2i⟩ := hcl l3 hl3
    apply exists_book_isbn_iff.mpr
    rw [setAvailability_map_isbn]
    exact exists_book_isbn_iff.mp ⟨b2, hb2, by rw [hb2i, hl3i]⟩
  · intro b2 hb2
    rcases setAvailability_mem hnd hfb hb2 with ⟨hb2m, hb2ne⟩ | rfl
    · rw [countActive_markReturned_ne today hget (by rw [hliz]; exact fun hc => hb2ne hc.symm)]
      exact hcnt b2 hb2m
    · have h1 : countActive s.loans isbn = 1 := by
        have := hcnt b hbmem
        rw [hav, if_neg (by simp)] at this
        rw [← hbisbn]
        exact this
      have h2 := countActive_markReturned today hget hliz hlret
      have h4 : ({ b with available := true } : Book).isbn = b.isbn := rfl
      have h3 : ({ b with available := true } : Book).available = true := rfl
      simp only [h4, h3, hbisbn]
      simp only [if_pos]
      omega

theorem reachable_inv {users : List Int} {s : LibState}
    (h : Reachable users s) : Inv s := by
  induction h with
  | empty => exact inv_empty
  | add _ hav hop ih => exact inv_add_book ih hav hop
  | issue _ hop ih => exact inv_issue_book ih hop
  | ret _ hop ih => exact inv_return_book ih hop

/-! Outcome lemmas for the error paths of the endpoints. -/

theorem not_mem_find_user_binary_false {users : List Int} {cid : Int}
    (hs : users.Pairwise (· ≤ ·)) (hmem : cid ∉ users) :
    find_user_binary cid users = false := by
  cases hb : find_user_binary cid users
  · rfl
  · exact absurd ((find_user_binary_iff hs).mp hb) hmem

theorem issue_book_forbidden {users : List Int} {s : LibState} {isbn : String}
    {cid today : Int} (hfu : find_user_binary cid users = false) :
    issue_book users s isbn cid today = (some ApiError.Forbidden, s) := by
  unfold issue_book
  rw [hfu]
  simp

theorem issue_book_notfound {users : List Int} {s : LibState} {isbn : String}
    {cid today : Int} (hfu : find_user_binary cid users = true)
    (hfb : findBook s.books isbn = none) :
    issue_book users s isbn cid today = (some ApiError.NotFound, s) := by
  unfold issue_book
  rw [hfu]
  simp only [Bool.not_true, Bool.false_eq_true, if_false]
  rw [hfb]

theorem issue_book_conflict {users : List Int} {s : LibState} {isbn : String}
    {cid today : Int} {b : Book} (hfu : find_user_binary cid users = true)
    (hfb : findBook s.books isbn = some b) (hav : b.available = false) :
    issue_book users s isbn cid today = (some ApiError.Conflict, s) := by
  unfold issue_book
  rw [hfu]
  simp only [Bool.not_true, Bool.false_eq_true, if_false]
  rw [hfb]
  dsimp only
  rw [hav]
  simp

theorem return_book_no_book {s : LibState} {isbn : String} {cid today : Int}
    (hfb : findBook s.books isbn = none) :
    return_book s isbn cid today = (some ApiError.NotFound, s) := by
  unfold return_book
  rw [hfb]

theorem return_book_available_conflict {s : LibState} {isbn : String}
    {cid today : Int} {b : Book} (hfb : findBook s.books isbn = some b)
    (hav : b.available = true) :
    return_book s isbn cid today = (some ApiError.Conflict, s) := by
  unfold return_book
  rw [hfb]
  dsimp only
  rw [hav]
  simp

theorem return_book_no_active {s : LibState} {isbn : String} {cid today : Int}
    {b : Book} (hfb : findBook s.books isbn = some b)
    (hav : b.available = false) (hla : lastActiveIdx s.loans isbn = none) :
    return_book s isbn cid today = (some ApiError.NotFound, s) := by
  unfold return_book
  rw [hfb]
  dsimp only
  rw [hav]
  simp only [Bool.false_eq_true, if_false]
  rw [hla]

theorem lastActiveIdx_none_of_countActive_zero {loans : List LoanRecord}
    {isbn : String} (h : countActive loans isbn = 0) :
    lastActiveIdx loans isbn = none :=
  lastActiveIdx_eq_none.mpr (countActive_eq_zero.mp h)

theorem delete_book_ok {s : LibState} {isbn : String} {b : Book}
    (hfb : findBook s.books isbn = some b)
    (hact : hasActiveLoan s.loans isbn = false) :
    delete_book s isbn = (none, { s with books := removeBook s.books isbn }) := by
  unfold delete_book
  rw [hfb]
  dsimp only
  rw [hact]
  simp

theorem delete_book_conflict {s : LibState} {isbn : String} {b : Book}
    (hfb : findBook s.books isbn = some b) (hav : b.available = false)
    (hact : hasActiveLoan s.loans isbn = true) :
    delete_book s isbn = (some ApiError.Conflict, s) := by
  unfold delete_book
  rw [hfb]
  dsimp only
  rw [hav, hact]
  simp

/-! Claim theorems. -/

/-- C1: in every state reachable from the empty library by any sequence of
add_book, issue and return operations, a book's available field is false
exactly when the ledger holds exactly one loan record with the book's isbn
and returned = false. -/
theorem C1_available_iff_one_active_loan {users : List Int} {s : LibState}
    (h : Reachable users s) :
    ∀ b ∈ s.books, (b.available = false ↔ countActive s.loans b.isbn = 1) := by
  obtain ⟨-, -, hcnt⟩ := reachable_inv h
  intro b hb
  have hc := hcnt b hb
  cases hav : b.available
  · rw [hav] at hc
    simp only [Bool.false_eq_true, if_false] at hc
    simp [hc]
  · rw [hav] at hc
    simp only [if_pos] at hc
    simp [hc]

/-- Witness for C1: the invariant instantiated at the concrete state reached
by adding book I1 and issuing it to registered customer 1001. -/
theorem C1_witness :
    (false = false ↔
      countActive [(⟨"I1", 1001, 100, 130, false⟩ : LoanRecord)] "I1" = 1) := by
  have h0 : Reachable [1001] { books := [], loans := [] } := Reachable.empty
  have h1 : Reachable [1001]
      { books := [⟨"T", "A", 100, true, "I1", "G"⟩], loans := [] } :=
    @Reachable.add [1001] { books := [], loans := [] }
      { books := [⟨"T", "A", 100, true, "I1", "G"⟩], loans := [] }
      ⟨"T", "A", 100, true, "I1", "G"⟩ h0 rfl (by decide)
  have hfu : find_user_binary 1001 [1001] = true := by
    simp [find_user_binary, fub_go]
  have hop : issue_book [1001]
      { books := [⟨"T", "A", 100, true, "I1", "G"⟩], loans := [] }
      "I1" 1001 100 =
      (none, { books := [⟨"T", "A", 100, false, "I1", "G"⟩],
               loans := [⟨"I1", 1001, 100, 130, false⟩] }) := by
    unfold issue_book
    rw [hfu]
    decide
  have h2 : Reachable [1001]
      { books := [⟨"T", "A", 100, false, "I1", "G"⟩],
        loans := [⟨"I1", 1001, 100, 130, false⟩] } :=
    Reachable.issue h1 hop
  have h3 := C1_available_iff_one_active_loan h2
    ⟨"T", "A", 100, false, "I1", "G"⟩ (by decide)
  simpa using h3

/-- C2 counterexample: in the state holding two unreturned loans for isbn I1,
by customer 1 (older) and customer 2 (most recent), returnBook with supplied
customer id 1 marks customer 2's loan as returned and leaves customer 1's
loan unreturned, contradicting the claim that the loan of the supplied
customer is the one marked returned. -/
theorem C2_counterexample :
    (return_book { books := [⟨"T", "A", 100, false, "I1", "G"⟩],
                   loans := [⟨"I1", 1, 0, 30, false⟩, ⟨"I1", 2, 0, 30, false⟩] }
        "I1" 1 9).1 = none ∧
    (return_book { books := [⟨"T", "A", 100, false, "I1", "G"⟩],
                   loans := [⟨"I1", 1, 0, 30, false⟩, ⟨"I1", 2, 0, 30, false⟩] }
        "I1" 1 9).2.loans =
      [⟨"I1", 1, 0, 30, false⟩, ⟨"I1", 2, 0, 9, true⟩] := by
  decide

/-- C2 (amended): on every successful returnBook(isbn, customerId) the loan
marked as returned is exactly the most recently appended loan record whose
isbn matches and which is unreturned, irrespective of the supplied customer
id; every other loan record is untouched. -/
theorem C2_return_marks_most_recent_isbn_match {s : LibState} {isbn : String}
    {cid today : Int} {s2 : LibState}
    (h : return_book s isbn cid today = (none, s2)) :
    ∃ i l, s.loans.get? i = some l ∧ l.isbn = isbn ∧ l.returned = false ∧
      (∀ j l2, i < j → s.loans.get? j = some l2 → l2.isbn = isbn →
        l2.returned = true) ∧
      s2.loans.get? i = some { l with returned := true, due_date := today } ∧
      (∀ j, j ≠ i → s2.loans.get? j = s.loans.get? j) := by
  obtain ⟨b, i, hfb, hav, hla, rfl⟩ := return_book_ok_inv h
  obtain ⟨l, hget, hliz, hlret, hmax⟩ := lastActiveIdx_spec hla
  refine ⟨i, l, hget, hliz, hlret, hmax, ?_, ?_⟩
  · exact markReturned_get?_same today hget
  · intro j hj
    exact markReturned_get?_other today hj

/-- Witness for C2 (amended): the concrete two-loan run. -/
theorem C2_witness :
    ∃ i l, ([(⟨"I1", 1, 0, 30, false⟩ : LoanRecord), ⟨"I1", 2, 0, 30, false⟩] :
        List LoanRecord).get? i = some l ∧ l.isbn = "I1" ∧ l.returned = false ∧
      (∀ j l2, i < j →
        ([(⟨"I1", 1, 0, 30, false⟩ : LoanRecord),
          ⟨"I1", 2, 0, 30, false⟩] : List LoanRecord).get? j = some l2 →
        l2.isbn = "I1" → l2.returned = true) ∧
      ({ books := [⟨"T", "A", 100, true, "I1", "G"⟩],
         loans := [⟨"I1", 1, 0, 30, false⟩, ⟨"I1", 2, 0, 9, true⟩] } :
           LibState).loans.get? i =
        some { l with returned := true, due_date := 9 } ∧
      (∀ j, j ≠ i →
        ({ books := [⟨"T", "A", 100, true, "I1", "G"⟩],
           loans := [⟨"I1", 1, 0, 30, false⟩, ⟨"I1", 2, 0, 9, true⟩] } :
             LibState).loans.get? j =
          ([(⟨"I1", 1, 0, 30, false⟩ : LoanRecord),
            ⟨"I1", 2, 0, 30, false⟩] : List LoanRecord).get? j) :=
  by
  have h : return_book
      (⟨[⟨"T", "A", 100, false, "I1", "G"⟩],
        [⟨"I1", 1, 0, 30, false⟩, ⟨"I1", 2, 0, 30, false⟩]⟩ : LibState)
      "I1" 1 9 =
      (none, ⟨[⟨"T", "A", 100, true, "I1", "G"⟩],
              [⟨"I1", 1, 0, 30, false⟩, ⟨"I1", 2, 0, 9, true⟩]⟩) := by
    decide
  exact C2_return_marks_most_recent_isbn_match h

/-- C3: issue(isbn, customerId) fails Forbidden for an unregistered customer,
NotFound for a missing book, Conflict for an unavailable book, and a second
issue of the same book right after a successful one fails with Conflict. -/
theorem C3_issue_error_cases {users : List Int} {s : LibState} {isbn : String}
    {cid today : Int} (hs : users.Pairwise (· ≤ ·)) :
    (cid ∉ users →
      issue_book users s isbn cid today = (some ApiError.Forbidden, s)) ∧
    (cid ∈ users → findBook s.books isbn = none →
      issue_book users s isbn cid today = (some ApiError.NotFound, s)) ∧
    (∀ b, cid ∈ users → findBook s.books isbn = some b → b.available = false →
      issue_book users s isbn cid today = (some ApiError.Conflict, s)) ∧
    (∀ s2 cid2 today2, issue_book users s isbn cid today = (none, s2) →
      cid2 ∈ users →
      issue_book users s2 isbn cid2 today2 = (some ApiError.Conflict, s2)) := by
  refine ⟨?_, ?_, ?_, ?_⟩
  · intro hmem
    exact issue_book_forbidden (not_mem_find_user_binary_false hs hmem)
  · intro hmem hfb
    exact issue_book_notfound ((find_user_binary_iff hs).mpr hmem) hfb
  · intro b hmem hfb hav
    exact issue_book_conflict ((find_user_binary_iff hs).mpr hmem) hfb hav
  · intro s2 cid2 today2 h hmem2
    obtain ⟨-, b, hfb, hav, rfl⟩ := issue_book_ok_inv h
    have hfb2 : findBook (setAvailability s.books isbn false) isbn =
        some { b with available := false } :=
      findBook_setAvailability false hfb
    exact issue_book_conflict ((find_user_binary_iff hs).mpr hmem2) hfb2 rfl

/-- Witness for C3: issuing to unregistered customer 7 with registry [1001]
fails Forbidden. -/
theorem C3_witness :
    issue_book [1001] { books := [], loans := [] } "I1" 7 0 =
      (some ApiError.Forbidden, { books := [], loans := [] }) :=
  (C3_issue_error_cases (by decide)).1 (by decide)

/-- C4: when the customer is registered, the book exists and is available,
issue succeeds and its effect is exactly the appended loan record
(issue_date = today, due_date = today + 30 days, returned = false) plus the
book's available field set to false. -/
theorem C4_issue_success_effect {users : List Int} {s : LibState}
    {isbn : String} {cid today : Int} {b : Book}
    (hs : users.Pairwise (· ≤ ·)) (hmem : cid ∈ users)
    (hfb : findBook s.books isbn = some b) (hav : b.available = true) :
    issue_book users s isbn cid today =
      (none, { books := setAvailability s.books isbn false,
               loans := s.loans ++ [{ isbn := isbn, coustomer_id := cid,
                                      issue_date := today,
                                      due_date := today + 30,
                                      returned := false }] }) ∧
    findBook (setAvailability s.books isbn false) isbn =
      some { b with available := false } :=
  ⟨issue_book_eq_ok ((find_user_binary_iff hs).mpr hmem) hfb hav,
   findBook_setAvailability false hfb⟩

/-- Witness for C4: the concrete successful issue of book I1 to customer
1001 on day 100. -/
theorem C4_witness :
    issue_book [1001]
        { books := [⟨"T", "A", 100, true, "I1", "G"⟩], loans := [] }
        "I1" 1001 100 =
      (none, { books := setAvailability [⟨"T", "A", 100, true, "I1", "G"⟩]
                 "I1" false,
               loans := [] ++ [{ isbn := "I1", coustomer_id := 1001,
                                 issue_date := 100, due_date := 100 + 30,
                                 returned := false }] }) ∧
    findBook (setAvailability [⟨"T", "A", 100, true, "I1", "G"⟩] "I1" false)
        "I1" =
      some { (⟨"T", "A", 100, true, "I1", "G"⟩ : Book) with available := false } :=
  C4_issue_success_effect (by decide) (by decide) (by decide) rfl

/-- C5: issuing to an unregistered customer fails with Forbidden and the
post-state is exactly the input state: no loan appended, no book touched. -/
theorem C5_issue_unregistered_unchanged {users : List Int} {s : LibState}
    {isbn : String} {cid today : Int} (hs : users.Pairwise (· ≤ ·))
    (hmem : cid ∉ users) :
    issue_book users s isbn cid today = (some ApiError.Forbidden, s) :=
  issue_book_forbidden (not_mem_find_user_binary_false hs hmem)

/-- Witness for C5: concrete unregistered issue attempt against a non-empty
state, returning it unchanged. -/
theorem C5_witness :
    issue_book [3, 8] { books := [⟨"T", "A", 100, true, "I1", "G"⟩],
                        loans := [⟨"I2", 3, 0, 30, false⟩] } "I1" 5 0 =
      (some ApiError.Forbidden,
       { books := [⟨"T", "A", 100, true, "I1", "G"⟩],
         loans := [⟨"I2", 3, 0, 30, false⟩] }) :=
  C5_issue_unregistered_unchanged (by decide) (by decide)

/-- C6 counterexample: in a state whose catalog holds book I1 with
available = true and whose ledger has no unreturned loan for I1, returnBook
fails with Conflict (the book is already available), not NotFound. -/
theorem C6_counterexample :
    countActive ([] : List LoanRecord) "I1" = 0 ∧
    return_book { books := [⟨"T", "A", 100, true, "I1", "G"⟩], loans := [] }
        "I1" 1 0 =
      (some ApiError.Conflict,
       { books := [⟨"T", "A", 100, true, "I1", "G"⟩], loans := [] }) ∧
    some ApiError.Conflict ≠ some ApiError.NotFound := by
  decide

/-- C6 (amended): in every state with no unreturned loan for the isbn,
returnBook fails and leaves the state unchanged; the failure is NotFound
when the book is absent or when it exists with available = false, and
Conflict when it exists with available = true. -/
theorem C6_return_without_active_loan {s : LibState} {isbn : String}
    {cid today : Int} (h : countActive s.loans isbn = 0) :
    (findBook s.books isbn = none →
      return_book s isbn cid today = (some ApiError.NotFound, s)) ∧
    (∀ b, findBook s.books isbn = some b → b.available = true →
      return_book s isbn cid today = (some ApiError.Conflict, s)) ∧
    (∀ b, findBook s.books isbn = some b → b.available = false →
      return_book s isbn cid today = (some ApiError.NotFound, s)) := by
  refine ⟨?_, ?_, ?_⟩
  · intro hfb
    exact return_book_no_book hfb
  · intro b hfb hav
    exact return_book_available_conflict hfb hav
  · intro b hfb hav
    exact return_book_no_active hfb hav
      (lastActiveIdx_none_of_countActive_zero h)

/-- Witness for C6 (amended): returning a book whose only ledger entry is
already returned yields NotFound. -/
theorem C6_witness :
    return_book { books := [⟨"T", "A", 100, false, "I1", "G"⟩],
                  loans := [⟨"I1", 1, 0, 9, true⟩] } "I1" 1 20 =
      (some ApiError.NotFound,
       { books := [⟨"T", "A", 100, false, "I1", "G"⟩],
         loans := [⟨"I1", 1, 0, 9, true⟩] }) :=
  (C6_return_without_active_loan (by decide)).2.2
    ⟨"T", "A", 100, false, "I1", "G"⟩ (by decide) rfl

/-- C7: the fine of a returned loan is 0 whatever the due date; the fine of
an unreturned loan is max(0, today - due_date) * 5; in particular an
unreturned loan due 3 days ago is fined 15. -/
theorem C7_calc_fine_spec (loan : LoanRecord) (today : Int) :
    calc_fine loan today =
      (if loan.returned then 0 else max 0 (today - loan.due_date) * 5) ∧
    calc_fine { loan with due_date := today - 3, returned := false } today = 15 := by
  constructor
  · unfold calc_fine
    cases hr : loan.returned
    · simp only [Bool.false_eq_true, if_false]
      by_cases hd : 0 ≤ loan.due_date - today
      · rw [if_pos hd]
        have hm : max 0 (today - loan.due_date) = 0 := by omega
        rw [hm]
        ring
      · rw [if_neg hd]
        have h1 : |loan.due_date - today| = today - loan.due_date := by
          rw [abs_of_neg (by omega)]
          ring
        have h2 : max 0 (today - loan.due_date) = today - loan.due_date := by
          omega
        rw [h1, h2]
    · simp
  · unfold calc_fine
    have hr : ({ loan with due_date := today - 3, returned := false } :
        LoanRecord).returned = false := rfl
    have hd : ({ loan with due_date := today - 3, returned := false } :
        LoanRecord).due_date = today - 3 := rfl
    rw [hr, hd]
    have h3 : today - 3 - today = -3 := by ring
    rw [h3]
    norm_num

/-- C8: in every state whose book availability flags are consistent with the
ledger (catalog keys unique and every available book free of unreturned
loans — true of every state the coordinator produces, cf. reachable_inv):
deleting a book referenced by an unreturned loan fails with Conflict and
leaves the state (hence the catalog entry) unchanged, and deleting a book
with no unreturned loan succeeds and removes it, so a subsequent lookup of
the isbn comes back empty. -/
theorem C8_delete_book {s : LibState} {isbn : String}
    (hnd : (s.books.map Book.isbn).Nodup)
    (hcons : ∀ b ∈ s.books, b.available = true →
      countActive s.loans b.isbn = 0) :
    (∀ b, findBook s.books isbn = some b → hasActiveLoan s.loans isbn = true →
      delete_book s isbn = (some ApiError.Conflict, s)) ∧
    (∀ b, findBook s.books isbn = some b → hasActiveLoan s.loans isbn = false →
      delete_book s isbn = (none, { s with books := removeBook s.books isbn }) ∧
      findBook (removeBook s.books isbn) isbn = none) := by
  constructor
  · intro b hfb hact
    obtain ⟨hbisbn, hbmem⟩ := findBook_isbn hfb
    have hav : b.available = false := by
      cases hv : b.available
      · rfl
      · exfalso
        have h0 := hcons b hbmem hv
        rw [hbisbn] at h0
        rw [← hasActiveLoan_false_iff] at h0
        rw [hact] at h0
        exact Bool.true_eq_false.mp h0
    exact delete_book_conflict hfb hav hact
  · intro b hfb hact
    exact ⟨delete_book_ok hfb hact, findBook_removeBook hnd⟩

/-- Witness for C8: deleting the on-loan book I1 fails with Conflict in the
concrete consistent state. -/
theorem C8_witness :
    delete_book (⟨[⟨"T", "A", 100, false, "I1", "G"⟩],
        [⟨"I1", 1, 0, 30, false⟩]⟩ : LibState) "I1" =
      (some ApiError.Conflict,
       ⟨[⟨"T", "A", 100, false, "I1", "G"⟩], [⟨"I1", 1, 0, 30, false⟩]⟩) :=
  (C8_delete_book (by decide) (by decide)).1
    ⟨"T", "A", 100, false, "I1", "G"⟩ (by decide) (by decide)

/-- C9: register(customer) fails with DuplicateKey exactly when the stored
registry already holds the customer id; otherwise it succeeds and the id is
found by the subsequent binary-search existence check on the saved
registry. -/
theorem C9_register_duplicate_iff (users : List Int) (cid : Int) :
    ((register_user users cid).1 = some ApiError.DuplicateKey ↔ cid ∈ users) ∧
    (cid ∉ users → (register_user users cid).1 = none ∧
      find_user_binary cid (register_user users cid).2 = true) := by
  have hs := sortIds_sorted users
  constructor
  · constructor
    · intro h
      by_cases hfu : find_user_binary cid (sortIds users) = true
      · exact mem_sortIds.mp ((find_user_binary_iff hs).mp hfu)
      · exfalso
        unfold register_user at h
        rw [if_neg hfu] at h
        simp at h
    · intro hmem
      have hfu : find_user_binary cid (sortIds users) = true :=
        (find_user_binary_iff hs).mpr (mem_sortIds.mpr hmem)
      unfold register_user
      rw [if_pos hfu]
  · intro hmem
    have hfu : ¬ find_user_binary cid (sortIds users) = true := by
      intro hb
      exact hmem (mem_sortIds.mp ((find_user_binary_iff hs).mp hb))
    unfold register_user
    rw [if_neg hfu]
    refine ⟨rfl, ?_⟩
    apply (find_user_binary_iff (sortIds_sorted _)).mpr
    apply mem_sortIds.mpr
    exact List.mem_append_right _ (List.mem_singleton.mpr rfl)

/-- Witness for C9: registering the fresh id 2 into the stored registry
[3, 1] succeeds and the id is subsequently found. -/
theorem C9_witness :
    (register_user [3, 1] 2).1 = none ∧
    find_user_binary 2 (register_user [3, 1] 2).2 = true :=
  (C9_register_duplicate_iff [3, 1] 2).2 (by decide)

/-- C10: on every successful returnBook the matched loan record (the most
recent unreturned one for the isbn, at position i) has its due_date field
overwritten with the return day and its returned field set to true, all its
other fields and every other loan record unchanged; in the catalog exactly
the matched book entry (position k) changes, and only its available field,
which becomes true. -/
theorem C10_return_frame {s : LibState} {isbn : String} {cid today : Int}
    {s2 : LibState} (h : return_book s isbn cid today = (none, s2)) :
    ∃ i l k b,
      lastActiveIdx s.loans isbn = some i ∧ s.loans.get? i = some l ∧
      s2.loans.get? i = some { l with returned := true, due_date := today } ∧
      (∀ j, j ≠ i → s2.loans.get? j = s.loans.get? j) ∧
      firstBookIdx s.books isbn = some k ∧ s.books.get? k = some b ∧
      s2.books.get? k = some { b with available := true } ∧
      (∀ j, j ≠ k → s2.books.get? j = s.books.get? j) := by
  obtain ⟨b, i, hfb, hav, hla, rfl⟩ := return_book_ok_inv h
  obtain ⟨l, hget, -, -, -⟩ := lastActiveIdx_spec hla
  obtain ⟨k, hk, hbk⟩ := findBook_firstBookIdx hfb
  refine ⟨i, l, k, b, hla, hget, ?_, ?_, hk, hbk, ?_, ?_⟩
  · exact markReturned_get?_same today hget
  · intro j hj
    exact markReturned_get?_other today hj
  · exact setAvailability_get?_at true hk hbk
  · intro j hj
    exact setAvailability_get?_other true hk hj

/-- Witness for C10: the frame condition instantiated on a concrete
successful return over a two-book, two-loan state. -/
theorem C10_witness :
    ∃ i l k b,
      lastActiveIdx [(⟨"I2", 5, 0, 30, false⟩ : LoanRecord),
        ⟨"I1", 1, 0, 30, false⟩] "I1" = some i ∧
      ([(⟨"I2", 5, 0, 30, false⟩ : LoanRecord),
        ⟨"I1", 1, 0, 30, false⟩] : List LoanRecord).get? i = some l ∧
      ((⟨[⟨"T", "A", 100, false, "I2", "G"⟩, ⟨"U", "B", 50, true, "I1", "H"⟩],
         [⟨"I2", 5, 0, 30, false⟩, ⟨"I1", 1, 0, 7, true⟩]⟩ :
           LibState)).loans.get? i =
        some { l with returned := true, due_date := 7 } ∧
      (∀ j, j ≠ i →
        ((⟨[⟨"T", "A", 100, false, "I2", "G"⟩, ⟨"U", "B", 50, true, "I1", "H"⟩],
           [⟨"I2", 5, 0, 30, false⟩, ⟨"I1", 1, 0, 7, true⟩]⟩ :
             LibState)).loans.get? j =
          ([(⟨"I2", 5, 0, 30, false⟩ : LoanRecord),
            ⟨"I1", 1, 0, 30, false⟩] : List LoanRecord).get? j) ∧
      firstBookIdx [(⟨"T", "A", 100, false, "I2", "G"⟩ : Book),
        ⟨"U", "B", 50, false, "I1", "H"⟩] "I1" = some k ∧
      ([(⟨"T", "A", 100, false, "I2", "G"⟩ : Book),
        ⟨"U", "B", 50, false, "I1", "H"⟩] : List Book).get? k = some b ∧
      ((⟨[⟨"T", "A", 100, false, "I2", "G"⟩, ⟨"U", "B", 50, true, "I1", "H"⟩],
         [⟨"I2", 5, 0, 30, false⟩, ⟨"I1", 1, 0, 7, true⟩]⟩ :
           LibState)).books.get? k = some { b with available := true } ∧
      (∀ j, j ≠ k →
        ((⟨[⟨"T", "A", 100, false, "I2", "G"⟩, ⟨"U", "B", 50, true, "I1", "H"⟩],
           [⟨"I2", 5, 0, 30, false⟩, ⟨"I1", 1, 0, 7, true⟩]⟩ :
             LibState)).books.get? j =
          ([(⟨"T", "A", 100, false, "I2", "G"⟩ : Book),
            ⟨"U", "B", 50, false, "I1", "H"⟩] : List Book).get? j) := by
  have h : return_book
      (⟨[⟨"T", "A", 100, false, "I2", "G"⟩, ⟨"U", "B", 50, false, "I1", "H"⟩],
        [⟨"I2", 5, 0, 30, false⟩, ⟨"I1", 1, 0, 30, false⟩]⟩ : LibState)
      "I1" 1 7 =
      (none,
       ⟨[⟨"T", "A", 100, false, "I2", "G"⟩, ⟨"U", "B", 50, true, "I1", "H"⟩],
        [⟨"I2", 5, 0, 30, false⟩, ⟨"I1", 1, 0, 7, true⟩]⟩) := by
    decide
  exact C10_return_frame h

end LibraryMS
